import Mathlib

/-!
Shallow embedding of the crk-points-bank OAuth grant engine and points
ledger (apps/crk-points-bank/src/oauth/oauth.service.ts,
points/points.service.ts, admin/admin.service.ts), together with proofs
checking the natural-language specification against it.

Modelling conventions:
* `Date` values are integer instants; `new Date()` becomes an explicit
  `now : Int` parameter taken at the call.
* decimal(10,2) point balances and amounts are integers (fixed-point
  units); the TypeScript `parseFloat(x.toString())` round-trip is the
  identity in this model.
* `randomBytes`/`randomInt` entropy and database-generated row ids are
  passed in as explicit fresh-string parameters.
* each repository-mutating service method is a function
  `St → args → Except Err α × St`; the returned state reflects all
  `save`/`remove` calls performed before a thrown exception, exactly as
  in the source (there is no enclosing database transaction there).
* `OAuthClient` keeps the two identifiers the source uses: `id`, the
  primary key that token/code rows reference (`client.id`), and
  `clientId`, the public identifier looked up by `validateClient`.
-/

namespace CrkPointsBank

/-- NestJS exceptions thrown by the services: NotFoundException and
BadRequestException, with the message string from the source. -/
inductive Err where
  | notFound (msg : String)
  | badRequest (msg : String)
deriving DecidableEq, Repr

/-- entities/member.entity: identifier, points balance, active flag
(credential and name fields are irrelevant to the claims). -/
structure Member where
  id : String
  points : Int
  active : Bool
deriving DecidableEq, Repr

/-- entities/oauth-client.entity: partner client record. -/
structure OAuthClient where
  id : String
  clientId : String
  clientSecret : String
  redirectUris : List String
  active : Bool
deriving DecidableEq, Repr

/-- entities/oauth-authorization-code.entity. -/
structure OAuthAuthorizationCode where
  authorizationCode : String
  expiresAt : Int
  redirectUri : String
  scope : List String
  clientId : String
  memberId : String
deriving DecidableEq, Repr

/-- entities/oauth-access-token.entity; `accessTokenExpiresAt` is
nullable (`none` is the non-expiring card-linking variant). -/
structure OAuthAccessToken where
  accessToken : String
  accessTokenExpiresAt : Option Int
  scope : List String
  clientId : String
  memberId : String
  revoked : Bool
deriving DecidableEq, Repr

/-- entities/oauth-refresh-token.entity. -/
structure OAuthRefreshToken where
  refreshToken : String
  refreshTokenExpiresAt : Int
  scope : List String
  clientId : String
  memberId : String
  revoked : Bool
deriving DecidableEq, Repr

/-- redemption_requests.status column values. -/
inductive ReqStatus where
  | pending
  | approved
  | rejected
  | expired
deriving DecidableEq, Repr

/-- The status string interpolated into the already-processed error
message. -/
def ReqStatus.text : ReqStatus → String
  | .pending => "pending"
  | .approved => "approved"
  | .rejected => "rejected"
  | .expired => "expired"

/-- entities/redemption-request.entity; `clientId` stores the public
client identifier (`client.clientId`), as points.service writes it. -/
structure RedemptionRequest where
  id : String
  memberId : String
  clientId : String
  amount : Int
  otp : String
  otpExpiresAt : Int
  status : ReqStatus
  completedAt : Option Int
deriving DecidableEq, Repr

/-- transactions.type column. -/
inductive TxType where
  | credit
  | debit
deriving DecidableEq, Repr

/-- entities/transaction.entity: the unified ledger record. -/
structure Transaction where
  id : String
  memberId : String
  clientId : String
  type : TxType
  method : String
  amount : Int
  status : Option String
  completedAt : Option Int
deriving DecidableEq, Repr

/-- The persistent store: one list per repository. -/
structure St where
  members : List Member
  clients : List OAuthClient
  authCodes : List OAuthAuthorizationCode
  accessTokens : List OAuthAccessToken
  refreshTokens : List OAuthRefreshToken
  redemptions : List RedemptionRequest
  transactions : List Transaction
deriving DecidableEq, Repr

/-- Configured token lifetimes (OAUTH_ACCESS_TOKEN_LIFETIME,
OAUTH_REFRESH_TOKEN_LIFETIME). -/
structure Config where
  accessTokenLifetime : Int
  refreshTokenLifetime : Int
deriving DecidableEq, Repr

/-- `clientRepository.findOne({ where: { clientId, active: true } })`. -/
def findClient (st : St) (clientId : String) : Option OAuthClient :=
  st.clients.find? fun c => c.clientId == clientId && c.active

/-- `memberRepository.findOne({ where: { id: memberId, active: true } })`. -/
def findMemberActive (st : St) (memberId : String) : Option Member :=
  st.members.find? fun m => m.id == memberId && m.active

/-- Row lookup by primary key (relation loads, `save` targets). -/
def findMember (st : St) (memberId : String) : Option Member :=
  st.members.find? fun m => m.id == memberId

/-- `memberRepository.save(member)`: update the row with this primary
key. -/
def updateMember (st : St) (m : Member) : St :=
  { st with members := st.members.map fun x => if x.id == m.id then m else x }

/-- `redemptionRepository.save(request)` for an existing row. -/
def saveRedemption (st : St) (r : RedemptionRequest) : St :=
  { st with redemptions := st.redemptions.map fun x => if x.id == r.id then r else x }

/-- `transactionRepository.save(transaction)` for a fresh row. -/
def appendTransaction (st : St) (t : Transaction) : St :=
  { st with transactions := st.transactions ++ [t] }

/-- Credits minus debits over a transaction list (the reconciliation
sum of spec section 3). -/
def ledgerSum (memberId : String) (txs : List Transaction) : Int :=
  (txs.filter fun t => t.memberId == memberId).foldl
    (fun acc t => match t.type with
      | .credit => acc + t.amount
      | .debit => acc - t.amount) 0

/-- OAuthService.validateClient: NotFound when no active client row
matches; the secret is checked only when it is supplied and truthy
(`if (clientSecret && client.clientSecret !== clientSecret)`), so an
empty-string secret skips the mismatch check. Performs no writes. -/
def validateClient (st : St) (clientId : String) (clientSecret : Option String) :
    Except Err OAuthClient :=
  match findClient st clientId with
  | none => .error (.notFound "Client not found")
  | some client =>
    match clientSecret with
    | some s =>
      if s ≠ "" ∧ client.clientSecret ≠ s then
        .error (.badRequest "Invalid client credentials")
      else .ok client
    | none => .ok client

/-- OAuthService.createAccessToken: a `pay-with-points` scope makes the
token non-expiring (`expiresAt = null`); otherwise now + configured
lifetime. Appends the row. -/
def createAccessToken (cfg : Config) (st : St) (now : Int) (client : OAuthClient)
    (memberId : String) (scope : List String) (freshToken : String) :
    OAuthAccessToken × St :=
  let expiresAt : Option Int :=
    if scope.contains "pay-with-points" then none
    else some (now + cfg.accessTokenLifetime)
  let t : OAuthAccessToken :=
    { accessToken := freshToken, accessTokenExpiresAt := expiresAt, scope := scope,
      clientId := client.id, memberId := memberId, revoked := false }
  (t, { st with accessTokens := st.accessTokens ++ [t] })

/-- OAuthService.createRefreshToken. -/
def createRefreshToken (cfg : Config) (st : St) (now : Int) (client : OAuthClient)
    (memberId : String) (scope : List String) (freshToken : String) :
    OAuthRefreshToken × St :=
  let t : OAuthRefreshToken :=
    { refreshToken := freshToken, refreshTokenExpiresAt := now + cfg.refreshTokenLifetime,
      scope := scope, clientId := client.id, memberId := memberId, revoked := false }
  (t, { st with refreshTokens := st.refreshTokens ++ [t] })

/-- The read/validate prefix of OAuthService.exchangeAuthorizationCode
(validateClient, authCodeRepository.findOne, the expiry, redirect-URI
and client checks). No writes happen in this phase. -/
def exchangeReadPhase (st : St) (now : Int)
    (code clientId clientSecret redirectUri : String) :
    Except Err (OAuthClient × OAuthAuthorizationCode) :=
  match validateClient st clientId (some clientSecret) with
  | .error e => .error e
  | .ok client =>
    match st.authCodes.find? (fun c => c.authorizationCode == code) with
    | none => .error (.badRequest "Invalid authorization code")
    | some authCode =>
      if authCode.expiresAt < now then
        .error (.badRequest "Authorization code expired")
      else if authCode.redirectUri ≠ redirectUri then
        .error (.badRequest "Redirect URI mismatch")
      else if authCode.clientId ≠ client.id then
        .error (.badRequest "Client mismatch")
      else .ok (client, authCode)

/-- The write suffix of OAuthService.exchangeAuthorizationCode: save the
access token, save the refresh token, then `remove` the code row.
Removing a row that is already gone is a no-op, as for a SQL DELETE by
primary key. In the source each of these is a separate awaited
repository call with no enclosing database transaction or lock. -/
def exchangeCommitPhase (cfg : Config) (st : St) (now : Int) (client : OAuthClient)
    (authCode : OAuthAuthorizationCode) (freshAccess freshRefresh : String) :
    (OAuthAccessToken × OAuthRefreshToken) × St :=
  let (accessTok, st1) :=
    createAccessToken cfg st now client authCode.memberId authCode.scope freshAccess
  let (refreshTok, st2) :=
    createRefreshToken cfg st1 now client authCode.memberId authCode.scope freshRefresh
  let st3 := { st2 with
    authCodes := st2.authCodes.filter
      fun c => c.authorizationCode != authCode.authorizationCode }
  ((accessTok, refreshTok), st3)

/-- OAuthService.exchangeAuthorizationCode, as executed without
interference: the read phase followed by the commit phase. -/
def exchangeAuthorizationCode (cfg : Config) (st : St) (now : Int)
    (code clientId clientSecret redirectUri : String)
    (freshAccess freshRefresh : String) :
    Except Err (OAuthAccessToken × OAuthRefreshToken) × St :=
  match exchangeReadPhase st now code clientId clientSecret redirectUri with
  | .error e => (.error e, st)
  | .ok (client, authCode) =>
    let (pair, st1) := exchangeCommitPhase cfg st now client authCode freshAccess freshRefresh
    (.ok pair, st1)

/-- OAuthService.refreshAccessToken: validate client, look up the
unrevoked token row, check expiry and owning client, mark the presented
token revoked, then issue a fresh pair with the same scope. -/
def refreshAccessToken (cfg : Config) (st : St) (now : Int)
    (refreshTokenValue clientId clientSecret : String)
    (freshAccess freshRefresh : String) :
    Except Err (OAuthAccessToken × OAuthRefreshToken) × St :=
  match validateClient st clientId (some clientSecret) with
  | .error e => (.error e, st)
  | .ok client =>
    match st.refreshTokens.find?
        (fun t => t.refreshToken == refreshTokenValue && !t.revoked) with
    | none => (.error (.badRequest "Invalid refresh token"), st)
    | some rt =>
      if rt.refreshTokenExpiresAt < now then
        (.error (.badRequest "Refresh token expired"), st)
      else if rt.clientId ≠ client.id then
        (.error (.badRequest "Client mismatch"), st)
      else
        let st1 := { st with
          refreshTokens := st.refreshTokens.map
            fun t => if t.refreshToken == refreshTokenValue then
              { t with revoked := true } else t }
        let (accessTok, st2) :=
          createAccessToken cfg st1 now client rt.memberId rt.scope freshAccess
        let (newRefresh, st3) :=
          createRefreshToken cfg st2 now client rt.memberId rt.scope freshRefresh
        (.ok (accessTok, newRefresh), st3)

/-- OAuthService.validateAccessToken: look up the unrevoked row with
this token value; a null expiry (card-linking variant) skips the expiry
check entirely. Performs no writes. -/
def validateAccessToken (st : St) (now : Int) (token : String) :
    Except Err OAuthAccessToken :=
  match st.accessTokens.find? (fun t => t.accessToken == token && !t.revoked) with
  | none => .error (.badRequest "Invalid access token")
  | some t =>
    match t.accessTokenExpiresAt with
    | some e =>
      if e < now then .error (.badRequest "Access token expired")
      else .ok t
    | none => .ok t

/-- PointsService.redeemWithAccessToken: the member and client entities
arrive already loaded from the validated token's relations. Positive
amount check, balance check, then decrement balance and append one
completed debit Transaction (status null, method oauth_direct). -/
def redeemWithAccessToken (st : St) (member : Member) (client : OAuthClient)
    (amount : Int) (txId : String) :
    Except Err (Int × String) × St :=
  if amount ≤ 0 then
    (.error (.badRequest "Redemption amount must be positive"), st)
  else
    let currentPoints := member.points
    if currentPoints < amount then
      (.error (.badRequest "Insufficient points"), st)
    else
      let member1 := { member with points := currentPoints - amount }
      let st1 := updateMember st member1
      let tx : Transaction :=
        { id := txId, memberId := member.id, clientId := client.clientId,
          type := .debit, method := "oauth_direct", amount := amount,
          status := none, completedAt := none }
      (.ok (member1.points, txId), appendTransaction st1 tx)

/-- The relation loads behind PointsService.redeemWithAccessToken: the
controller hands the service `accessToken.member` and
`accessToken.client`, i.e. the rows referenced by the token. Foreign
keys guarantee the rows exist; the error branch is unreachable in
consistent states. -/
def redeemByIds (st : St) (memberId clientPk : String) (amount : Int) (txId : String) :
    Except Err (Int × String) × St :=
  match findMember st memberId, st.clients.find? (fun c => c.id == clientPk) with
  | some member, some client => redeemWithAccessToken st member client amount txId
  | _, _ => (.error (.badRequest "relation rows missing"), st)

/-- PointsController.redeemWithAccessToken (POST points/redeem) with the
bearer token already extracted: validate the access token, require the
`points` scope, then call the service on the token's member and client. -/
def redeemEndpoint (st : St) (now : Int) (token : String) (amount : Int)
    (txId : String) :
    Except Err (Int × String) × St :=
  match validateAccessToken st now token with
  | .error e => (.error e, st)
  | .ok accessTok =>
    if accessTok.scope.contains "points" then
      redeemByIds st accessTok.memberId accessTok.clientId amount txId
    else
      (.error (.badRequest
        "Access token does not have permission to redeem points. Required scope: points"), st)

/-- The 10-minute OTP lifetime of
PointsService.createRedemptionRequest, in seconds. -/
def otpLifetime : Int := 600

/-- PointsService.createRedemptionRequest: validate client credentials
(here the secret comparison is unconditional), require an active
member, positive amount and sufficient balance, then persist a pending
request whose OTP expires 10 minutes from now. -/
def createRedemptionRequest (st : St) (now : Int)
    (clientId clientSecret memberId : String) (amount : Int)
    (otp reqId : String) :
    Except Err (String × String × Int) × St :=
  match findClient st clientId with
  | none => (.error (.notFound "Client not found"), st)
  | some client =>
    if client.clientSecret ≠ clientSecret then
      (.error (.badRequest "Invalid client credentials"), st)
    else
      match findMemberActive st memberId with
      | none => (.error (.notFound "Member not found"), st)
      | some member =>
        if amount ≤ 0 then
          (.error (.badRequest "Redemption amount must be positive"), st)
        else if member.points < amount then
          (.error (.badRequest "Member has insufficient points"), st)
        else
          let expiresAt := now + otpLifetime
          let r : RedemptionRequest :=
            { id := reqId, memberId := member.id, clientId := client.clientId,
              amount := amount, otp := otp, otpExpiresAt := expiresAt,
              status := .pending, completedAt := none }
          (.ok (reqId, otp, expiresAt),
            { st with redemptions := st.redemptions ++ [r] })

/-- PointsService.approveRedemptionRequest: lookup, ownership, pending,
OTP expiry (persisting `expired`), OTP match, re-checked balance
(persisting `rejected`), then decrement the balance, mark the entry
approved with a completion timestamp, and append the debit
Transaction — in exactly the source's order. -/
def approveRedemptionRequest (st : St) (now : Int)
    (memberId requestId otp : String) (txId : String) :
    Except Err (Int × String) × St :=
  match st.redemptions.find? (fun r => r.id == requestId) with
  | none => (.error (.notFound "Redemption request not found"), st)
  | some request =>
    if request.memberId ≠ memberId then
      (.error (.badRequest "This redemption request does not belong to you"), st)
    else if request.status ≠ .pending then
      (.error (.badRequest
        ("Redemption request is already " ++ request.status.text)), st)
    else if request.otpExpiresAt < now then
      let st1 := saveRedemption st { request with status := .expired }
      (.error (.badRequest "OTP has expired. Please request a new redemption."), st1)
    else if request.otp ≠ otp then
      (.error (.badRequest "Invalid OTP"), st)
    else
      match findMember st request.memberId with
      | none => (.error (.notFound "relation row missing"), st)
      | some member =>
        if member.points < request.amount then
          let st1 := saveRedemption st { request with status := .rejected }
          (.error (.badRequest "Insufficient points"), st1)
        else
          let member1 := { member with points := member.points - request.amount }
          let st1 := updateMember st member1
          let request1 :=
            { request with status := .approved, completedAt := some now }
          let st2 := saveRedemption st1 request1
          let tx : Transaction :=
            { id := txId, memberId := member.id, clientId := request.clientId,
              type := .debit, method := "otp_approval", amount := request.amount,
              status := some "approved", completedAt := some now }
          (.ok (member1.points, txId), appendTransaction st2 tx)

/-- PointsService.creditPointsWithClientCredentials: validate client
credentials, require an active member and positive amount, then
increment the balance and append one credit Transaction. The method tag
falls back to partner_credit when the reason is absent or empty
(`reason || 'partner_credit'`). -/
def creditPointsWithClientCredentials (st : St)
    (clientId clientSecret memberId : String) (amount : Int)
    (reason : Option String) (txId : String) :
    Except Err (Int × String) × St :=
  match findClient st clientId with
  | none => (.error (.notFound "Client not found"), st)
  | some client =>
    if client.clientSecret ≠ clientSecret then
      (.error (.badRequest "Invalid client credentials"), st)
    else
      match findMemberActive st memberId with
      | none => (.error (.notFound "Member not found"), st)
      | some member =>
        if amount ≤ 0 then
          (.error (.badRequest "Credit amount must be positive"), st)
        else
          let member1 := { member with points := member.points + amount }
          let st1 := updateMember st member1
          let method :=
            match reason with
            | some r => if r == "" then "partner_credit" else r
            | none => "partner_credit"
          let tx : Transaction :=
            { id := txId, memberId := member.id, clientId := client.clientId,
              type := .credit, method := method, amount := amount,
              status := none, completedAt := none }
          (.ok (member1.points, txId), appendTransaction st1 tx)

/-- AdminService.approveRedemptionRequest (the simulation-dashboard
approval path): the same lookup/ownership/pending/expiry/OTP/balance
checks, but on success it only decrements the balance and marks the
request approved — it records no completion timestamp and, unlike the
PointsService path, appends no Transaction row; an insufficient balance
here also leaves the request pending. -/
def adminApproveRedemptionRequest (st : St) (now : Int)
    (requestId memberId otp : String) :
    Except Err Int × St :=
  match st.redemptions.find? (fun r => r.id == requestId) with
  | none => (.error (.notFound "Redemption request not found"), st)
  | some request =>
    if request.memberId ≠ memberId then
      (.error (.badRequest "Request does not belong to this member"), st)
    else if request.status ≠ .pending then
      (.error (.badRequest ("Request is already " ++ request.status.text)), st)
    else if request.otpExpiresAt < now then
      let st1 := saveRedemption st { request with status := .expired }
      (.error (.badRequest "OTP has expired"), st1)
    else if request.otp ≠ otp then
      (.error (.badRequest "Invalid OTP"), st)
    else
      match findMember st request.memberId with
      | none => (.error (.notFound "relation row missing"), st)
      | some member =>
        if member.points < request.amount then
          (.error (.badRequest "Insufficient points"), st)
        else
          let member1 := { member with points := member.points - request.amount }
          let st1 := updateMember st member1
          let st2 := saveRedemption st1 { request with status := .approved }
          (.ok member1.points, st2)

/-- The ledger operations named by the balance-invariant claim, with
all run-time inputs (time, OTP, fresh ids) carried in the operation. -/
inductive LedgerOp where
  | redeem (memberId clientPk : String) (amount : Int) (txId : String)
  | approve (now : Int) (memberId requestId otp txId : String)
  | credit (clientId clientSecret memberId : String) (amount : Int)
      (reason : Option String) (txId : String)
deriving DecidableEq, Repr

/-- State after one ledger operation (whether it succeeded or threw). -/
def applyLedgerOp (st : St) (op : LedgerOp) : St :=
  match op with
  | .redeem memberId clientPk amount txId =>
    (redeemByIds st memberId clientPk amount txId).2
  | .approve now memberId requestId otp txId =>
    (approveRedemptionRequest st now memberId requestId otp txId).2
  | .credit clientId clientSecret memberId amount reason txId =>
    (creditPointsWithClientCredentials st clientId clientSecret memberId
      amount reason txId).2

/-- Every stored member balance is non-negative. -/
def balancesNonneg (st : St) : Prop :=
  ∀ m ∈ st.members, 0 ≤ m.points

/-! Sample records used to witness the theorems on concrete inputs. -/

/-- Sample token lifetimes (1 hour, 14 days). -/
def sampleCfg : Config := ⟨3600, 1209600⟩

/-- Sample active partner client. -/
def sampleClient : OAuthClient := ⟨"pk1", "cid1", "sec1", ["https://app/cb"], true⟩

/-- Sample active member with 200 points. -/
def sampleMember : Member := ⟨"m1", 200, true⟩

/-- Sample authorization code bound to the sample client and member. -/
def sampleCode : OAuthAuthorizationCode :=
  ⟨"code1", 100, "https://app/cb", ["profile", "points"], "pk1", "m1"⟩

/-- Sample access token with the points scope. -/
def sampleToken : OAuthAccessToken := ⟨"at0", some 1000, ["points"], "pk1", "m1", false⟩

/-- Sample non-expiring card-linking token. -/
def sampleCardToken : OAuthAccessToken :=
  ⟨"card0", none, ["pay-with-points"], "pk1", "m1", false⟩

/-- Sample unrevoked refresh token. -/
def sampleRefresh : OAuthRefreshToken :=
  ⟨"rt0", 5000, ["profile", "points"], "pk1", "m1", false⟩

/-- Sample pending OTP-gated redemption request over 50 points. -/
def sampleRequest : RedemptionRequest :=
  ⟨"req1", "m1", "cid1", 50, "123456", 700, .pending, none⟩

/-- Sample store holding all of the above. -/
def sampleSt : St :=
  ⟨[sampleMember], [sampleClient], [sampleCode], [sampleToken, sampleCardToken],
    [sampleRefresh], [sampleRequest], []⟩

/-- A deactivated member, with a still-valid access token, for the
active-flag claim. -/
def dormantMember : Member := ⟨"m2", 80, false⟩

/-- Access token owned by the deactivated member. -/
def dormantToken : OAuthAccessToken := ⟨"atD", some 1000, ["points"], "pk1", "m2", false⟩

/-- Store with both the active and the deactivated member. -/
def dormantSt : St :=
  ⟨[sampleMember, dormantMember], [sampleClient], [], [dormantToken], [], [], []⟩

/-! Helper lemmas. -/

/-- validateClient reads only the clients table. -/
lemma validateClient_congr {st1 st2 : St} (h : st1.clients = st2.clients)
    (clientId : String) (clientSecret : Option String) :
    validateClient st1 clientId clientSecret = validateClient st2 clientId clientSecret := by
  unfold validateClient findClient
  rw [h]

/-- Updating the row whose key is `k` by mapping `if key y == key x1`
makes the subsequent key lookup return the new row, provided some row
with that key was present. -/
lemma find?_map_update {α : Type} (key : α → String) (l : List α) (k : String) (x1 : α)
    (hx : key x1 = k)
    (h : (l.find? fun y => key y == k).isSome) :
    (l.map fun y => if key y == key x1 then x1 else y).find? (fun y => key y == k)
      = some x1 := by
  induction l with
  | nil => simp [List.find?] at h
  | cons a l ih =>
    simp only [List.map_cons]
    by_cases ha : key a = k
    · have ha1 : (if key a == key x1 then x1 else a) = x1 := by
        rw [hx, ha]
        simp
      rw [ha1]
      have hp : (fun y => key y == k) x1 = true := by simp [hx]
      rw [@List.find?_cons_of_pos _ (fun y => key y == k) x1 _ hp]
    · have ha1 : (if key a == key x1 then x1 else a) = a := by
        rw [hx]
        simp [ha]
      rw [ha1]
      have hpa : ¬ ((fun y => key y == k) a = true) := by simp [ha]
      rw [@List.find?_cons_of_neg _ (fun y => key y == k) a _ hpa]
      rw [@List.find?_cons_of_neg _ (fun y => key y == k) a l hpa] at h
      exact ih h

/-- Balance non-negativity is preserved by a member-row update whose
new balance is non-negative. -/
lemma balancesNonneg_updateMember {st : St} {m1 : Member} (h : balancesNonneg st)
    (hm : 0 ≤ m1.points) : balancesNonneg (updateMember st m1) := by
  intro x hx
  simp only [updateMember, List.mem_map] at hx
  obtain ⟨y, hy, hxy⟩ := hx
  by_cases hc : y.id == m1.id
  · rw [if_pos hc] at hxy
    rw [← hxy]
    exact hm
  · rw [if_neg hc] at hxy
    rw [← hxy]
    exact h y hy

/-- In a store whose member ids are pairwise distinct, a deactivated
member is invisible to the active-member lookup. -/
lemma findMemberActive_eq_none {st : St} {m : Member}
    (hnodup : (st.members.map Member.id).Nodup)
    (hm : m ∈ st.members) (hinact : m.active = false) :
    findMemberActive st m.id = none := by
  unfold findMemberActive
  rw [List.find?_eq_none]
  intro x hx hpx
  simp only [Bool.and_eq_true, beq_iff_eq] at hpx
  have hxm : x = m := List.inj_on_of_nodup_map hnodup hx hm hpx.1
  rw [hxm] at hpx
  rw [hinact] at hpx
  exact Bool.false_ne_true hpx.2

/-- Claim C7: validateAccessToken(token) fails with InvalidToken if no
matching unrevoked token exists; fails with Expired if the token
carries an expiry instant that is in the past; and for every token
whose expiry field is null it performs no expiry check at all, so such
a token validates successfully at any instant unless revoked. -/
theorem validateAccessToken_spec (st : St) (now : Int) (token : String) :
    (st.accessTokens.find? (fun t => t.accessToken == token && !t.revoked) = none →
      validateAccessToken st now token = .error (.badRequest "Invalid access token")) ∧
    (∀ t e, st.accessTokens.find? (fun t => t.accessToken == token && !t.revoked) = some t →
      t.accessTokenExpiresAt = some e → e < now →
      validateAccessToken st now token = .error (.badRequest "Access token expired")) ∧
    (∀ t e, st.accessTokens.find? (fun t => t.accessToken == token && !t.revoked) = some t →
      t.accessTokenExpiresAt = some e → ¬ e < now →
      validateAccessToken st now token = .ok t) ∧
    (∀ t, st.accessTokens.find? (fun t => t.accessToken == token && !t.revoked) = some t →
      t.accessTokenExpiresAt = none →
      ∀ anyNow : Int, validateAccessToken st anyNow token = .ok t) := by
  refine ⟨?_, ?_, ?_, ?_⟩
  · intro h
    unfold validateAccessToken
    rw [h]
  · intro t e h he hlt
    unfold validateAccessToken
    rw [h]
    simp [he, hlt]
  · intro t e h he hlt
    unfold validateAccessToken
    rw [h]
    simp [he, hlt]
  · intro t h he anyNow
    unfold validateAccessToken
    rw [h]
    simp [he]

/-- Witness for validateAccessToken_spec: in the sample store the
non-expiring card-linking token still validates at a far-future
instant. -/
theorem validateAccessToken_spec_witness :
    validateAccessToken sampleSt 999999999 "card0" = .ok sampleCardToken :=
  (validateAccessToken_spec sampleSt 0 "card0").2.2.2 sampleCardToken (by rfl) rfl 999999999

/-- Claim C8 counterexample: the sample client's stored secret is
"sec1"; the supplied secret "" differs from it, yet validateClient
succeeds instead of failing with InvalidCredentials, because
`if (clientSecret && ...)` skips the comparison for a falsy
(empty) string. -/
theorem validateClient_empty_secret_counterexample :
    sampleClient.clientSecret ≠ "" ∧
    validateClient sampleSt "cid1" (some "") = .ok sampleClient := by
  exact ⟨by decide, by rfl⟩

/-- Claim C8 (amended): validateClient fails with NotFound if no
active client record matches clientId; for every supplied non-empty
secret that differs from the stored secret it fails with
InvalidCredentials; a supplied empty-string secret is treated as
absent and skips the check; on success it returns the stored client.
It only reads the clients table (its model takes no post-state). -/
theorem validateClient_spec (st : St) (clientId : String) (secret : Option String) :
    (findClient st clientId = none →
      validateClient st clientId secret = .error (.notFound "Client not found")) ∧
    (∀ client s, findClient st clientId = some client → secret = some s →
      s ≠ "" → client.clientSecret ≠ s →
      validateClient st clientId secret = .error (.badRequest "Invalid client credentials")) ∧
    (∀ client, findClient st clientId = some client →
      (secret = none ∨ secret = some "" ∨ secret = some client.clientSecret) →
      validateClient st clientId secret = .ok client) := by
  refine ⟨?_, ?_, ?_⟩
  · intro h
    unfold validateClient
    rw [h]
  · intro client s h hs hne hmis
    unfold validateClient
    rw [h, hs]
    simp [hne, hmis]
  · intro client h hcase
    unfold validateClient
    rw [h]
    rcases hcase with h1 | h1 | h1 <;> rw [h1] <;> simp

/-- Witness for validateClient_spec: a wrong non-empty secret is
rejected on the sample store. -/
theorem validateClient_spec_witness :
    validateClient sampleSt "cid1" (some "wrong")
      = .error (.badRequest "Invalid client credentials") :=
  (validateClient_spec sampleSt "cid1" (some "wrong")).2.1 sampleClient "wrong"
    (by rfl) rfl (by decide) (by decide)

/-- A failed read phase makes the exchange fail without state change. -/
lemma exchange_eq_of_read_error {cfg : Config} {st : St} {now : Int}
    {code clientId clientSecret redirectUri freshA freshR : String} {e : Err}
    (h : exchangeReadPhase st now code clientId clientSecret redirectUri = .error e) :
    exchangeAuthorizationCode cfg st now code clientId clientSecret redirectUri freshA freshR
      = (.error e, st) := by
  unfold exchangeAuthorizationCode
  rw [h]

/-- A successful read phase makes the exchange run the commit phase. -/
lemma exchange_eq_of_read_ok {cfg : Config} {st : St} {now : Int}
    {code clientId clientSecret redirectUri freshA freshR : String}
    {client : OAuthClient} {ac : OAuthAuthorizationCode}
    (h : exchangeReadPhase st now code clientId clientSecret redirectUri = .ok (client, ac)) :
    exchangeAuthorizationCode cfg st now code clientId clientSecret redirectUri freshA freshR
      = (.ok (exchangeCommitPhase cfg st now client ac freshA freshR).1,
         (exchangeCommitPhase cfg st now client ac freshA freshR).2) := by
  unfold exchangeAuthorizationCode
  rw [h]

/-- The read phase succeeds exactly on a valid client, a stored code,
and passing expiry/redirect/client checks. -/
lemma exchangeReadPhase_ok {st : St} {now : Int}
    {code clientId clientSecret redirectUri : String}
    {client : OAuthClient} {ac : OAuthAuthorizationCode}
    (hv : validateClient st clientId (some clientSecret) = .ok client)
    (hf : st.authCodes.find? (fun c => c.authorizationCode == code) = some ac)
    (hexp : ¬ ac.expiresAt < now) (hred : ac.redirectUri = redirectUri)
    (hcl : ac.clientId = client.id) :
    exchangeReadPhase st now code clientId clientSecret redirectUri = .ok (client, ac) := by
  unfold exchangeReadPhase
  rw [hv, hf]
  simp [hexp, hred, hcl]

/-- The commit phase filters out exactly the consumed code's row and
leaves the rest of the code table alone. -/
lemma commit_authCodes (cfg : Config) (st : St) (now : Int)
    (client : OAuthClient) (ac : OAuthAuthorizationCode) (freshA freshR : String) :
    (exchangeCommitPhase cfg st now client ac freshA freshR).2.authCodes
      = st.authCodes.filter (fun c => c.authorizationCode != ac.authorizationCode) := rfl

/-- No row of the commit phase's post-state carries the consumed code. -/
lemma commit_deletes_code (cfg : Config) (st : St) (now : Int)
    (client : OAuthClient) (ac : OAuthAuthorizationCode) (freshA freshR : String) :
    ((exchangeCommitPhase cfg st now client ac freshA freshR).2.authCodes.find?
      fun c => c.authorizationCode == ac.authorizationCode) = none := by
  rw [commit_authCodes, List.find?_eq_none]
  intro x hx
  have hx2 := hx
  rw [List.mem_filter] at hx2
  simp only [bne_iff_ne, ne_eq, decide_eq_true_eq] at hx2
  simp only [beq_iff_eq]
  exact hx2.2

/-- Claim C2: exchangeAuthorizationCode validates the client, then
fails with InvalidGrant if the code is not found, with Expired if past
its expiry, and with RedirectMismatch / ClientMismatch if the bound
redirect target or client differ; on success it deletes the code and
issues a fresh access+refresh token pair whose scope set equals the
code's scope set, so a subsequent exchange of the same code fails with
InvalidGrant (one-time use). -/
theorem exchangeAuthorizationCode_spec (cfg : Config) (st : St) (now : Int)
    (code clientId clientSecret redirectUri freshA freshR : String) :
    (∀ e, validateClient st clientId (some clientSecret) = .error e →
      exchangeAuthorizationCode cfg st now code clientId clientSecret redirectUri freshA freshR
        = (.error e, st)) ∧
    (∀ client, validateClient st clientId (some clientSecret) = .ok client →
      st.authCodes.find? (fun c => c.authorizationCode == code) = none →
      exchangeAuthorizationCode cfg st now code clientId clientSecret redirectUri freshA freshR
        = (.error (.badRequest "Invalid authorization code"), st)) ∧
    (∀ client ac, validateClient st clientId (some clientSecret) = .ok client →
      st.authCodes.find? (fun c => c.authorizationCode == code) = some ac →
      ac.expiresAt < now →
      exchangeAuthorizationCode cfg st now code clientId clientSecret redirectUri freshA freshR
        = (.error (.badRequest "Authorization code expired"), st)) ∧
    (∀ client ac, validateClient st clientId (some clientSecret) = .ok client →
      st.authCodes.find? (fun c => c.authorizationCode == code) = some ac →
      ¬ ac.expiresAt < now → ac.redirectUri ≠ redirectUri →
      exchangeAuthorizationCode cfg st now code clientId clientSecret redirectUri freshA freshR
        = (.error (.badRequest "Redirect URI mismatch"), st)) ∧
    (∀ client ac, validateClient st clientId (some clientSecret) = .ok client →
      st.authCodes.find? (fun c => c.authorizationCode == code) = some ac →
      ¬ ac.expiresAt < now → ac.redirectUri = redirectUri → ac.clientId ≠ client.id →
      exchangeAuthorizationCode cfg st now code clientId clientSecret redirectUri freshA freshR
        = (.error (.badRequest "Client mismatch"), st)) ∧
    (∀ client ac, validateClient st clientId (some clientSecret) = .ok client →
      st.authCodes.find? (fun c => c.authorizationCode == code) = some ac →
      ¬ ac.expiresAt < now → ac.redirectUri = redirectUri → ac.clientId = client.id →
      ∃ accessTok refreshTok st1,
        exchangeAuthorizationCode cfg st now code clientId clientSecret redirectUri freshA freshR
          = (.ok (accessTok, refreshTok), st1) ∧
        accessTok.scope = ac.scope ∧ refreshTok.scope = ac.scope ∧
        accessTok.memberId = ac.memberId ∧ refreshTok.memberId = ac.memberId ∧
        accessTok.accessToken = freshA ∧ refreshTok.refreshToken = freshR ∧
        st1.authCodes.find? (fun c => c.authorizationCode == code) = none ∧
        (∀ now2 fa2 fr2,
          exchangeAuthorizationCode cfg st1 now2 code clientId clientSecret redirectUri fa2 fr2
            = (.error (.badRequest "Invalid authorization code"), st1))) := by
  refine ⟨?_, ?_, ?_, ?_, ?_, ?_⟩
  · intro e hv
    apply exchange_eq_of_read_error
    unfold exchangeReadPhase
    rw [hv]
  · intro client hv hf
    apply exchange_eq_of_read_error
    unfold exchangeReadPhase
    rw [hv, hf]
  · intro client ac hv hf hexp
    apply exchange_eq_of_read_error
    unfold exchangeReadPhase
    rw [hv, hf]
    simp [hexp]
  · intro client ac hv hf hexp hred
    apply exchange_eq_of_read_error
    unfold exchangeReadPhase
    rw [hv, hf]
    simp [hexp, hred]
  · intro client ac hv hf hexp hred hcl
    apply exchange_eq_of_read_error
    unfold exchangeReadPhase
    rw [hv, hf]
    simp [hexp, hred, hcl]
  · intro client ac hv hf hexp hred hcl
    have hread := exchangeReadPhase_ok hv hf hexp hred hcl
    have hcode : ac.authorizationCode = code := by
      have := List.find?_some hf
      simpa using this
    refine ⟨(exchangeCommitPhase cfg st now client ac freshA freshR).1.1,
      (exchangeCommitPhase cfg st now client ac freshA freshR).1.2,
      (exchangeCommitPhase cfg st now client ac freshA freshR).2,
      ?_, rfl, rfl, rfl, rfl, rfl, rfl, ?_, ?_⟩
    · rw [exchange_eq_of_read_ok hread]
    · rw [← hcode]
      exact commit_deletes_code cfg st now client ac freshA freshR
    · intro now2 fa2 fr2
      apply exchange_eq_of_read_error
      unfold exchangeReadPhase
      have hcl2 : (exchangeCommitPhase cfg st now client ac freshA freshR).2.clients
          = st.clients := rfl
      rw [validateClient_congr hcl2, hv]
      rw [← hcode]
      rw [commit_deletes_code cfg st now client ac freshA freshR]

/-- Witness for exchangeAuthorizationCode_spec: on the sample store the
exchange issues a points-scoped pair and the code cannot be exchanged
twice. -/
theorem exchangeAuthorizationCode_spec_witness :
    ∃ accessTok refreshTok st1,
      exchangeAuthorizationCode sampleCfg sampleSt 50 "code1" "cid1" "sec1"
        "https://app/cb" "at1" "rt1" = (.ok (accessTok, refreshTok), st1) ∧
      accessTok.scope = sampleCode.scope ∧ refreshTok.scope = sampleCode.scope ∧
      accessTok.memberId = sampleCode.memberId ∧ refreshTok.memberId = sampleCode.memberId ∧
      accessTok.accessToken = "at1" ∧ refreshTok.refreshToken = "rt1" ∧
      st1.authCodes.find? (fun c => c.authorizationCode == "code1") = none ∧
      (∀ now2 fa2 fr2,
        exchangeAuthorizationCode sampleCfg st1 now2 "code1" "cid1" "sec1"
          "https://app/cb" fa2 fr2
          = (.error (.badRequest "Invalid authorization code"), st1)) :=
  (exchangeAuthorizationCode_spec sampleCfg sampleSt 50 "code1" "cid1" "sec1"
      "https://app/cb" "at1" "rt1").2.2.2.2.2 sampleClient sampleCode
    (by rfl) (by rfl) (by decide) (by rfl) (by rfl)

/-- After the rotation write, every stored row holding the presented
refresh-token value is revoked (the freshly issued row carries a
different value). -/
lemma refreshTokens_after_rotation (st : St) (rtv : String) (nrt : OAuthRefreshToken)
    (hfresh : nrt.refreshToken ≠ rtv) :
    ∀ t ∈ (st.refreshTokens.map fun t =>
        if t.refreshToken == rtv then { t with revoked := true } else t) ++ [nrt],
      t.refreshToken = rtv → t.revoked = true := by
  intro t ht htv
  rcases List.mem_append.1 ht with hm | hs
  · obtain ⟨y, hy, hyt⟩ := List.mem_map.1 hm
    by_cases hc : y.refreshToken == rtv
    · rw [if_pos hc] at hyt
      rw [← hyt]
    · rw [if_neg hc] at hyt
      rw [← hyt] at htv
      simp [htv] at hc
  · rw [List.mem_singleton] at hs
    rw [hs] at htv
    exact absurd htv hfresh

/-- After the rotation write, the unrevoked-row lookup for the
presented value finds nothing. -/
lemma find?_rotation_none (st : St) (rtv : String) (nrt : OAuthRefreshToken)
    (hfresh : nrt.refreshToken ≠ rtv) :
    ((st.refreshTokens.map fun t =>
        if t.refreshToken == rtv then { t with revoked := true } else t) ++ [nrt]).find?
      (fun t => t.refreshToken == rtv && !t.revoked) = none := by
  rw [List.find?_eq_none]
  intro x hx hpx
  simp only [Bool.and_eq_true, beq_iff_eq, Bool.not_eq_true'] at hpx
  have hrev := refreshTokens_after_rotation st rtv nrt hfresh x hx hpx.1
  rw [hrev] at hpx
  simp at hpx

/-- A refresh attempt fails with the invalid-token error, without
state change, whenever the client validates but no unrevoked row
carries the presented value. -/
lemma refresh_replay_fails (cfg : Config) (stb : St) (now2 : Int)
    (rtv clientId clientSecret fa2 fr2 : String) {client : OAuthClient}
    (hv : validateClient stb clientId (some clientSecret) = .ok client)
    (hnone : stb.refreshTokens.find?
      (fun t => t.refreshToken == rtv && !t.revoked) = none) :
    refreshAccessToken cfg stb now2 rtv clientId clientSecret fa2 fr2
      = (.error (.badRequest "Invalid refresh token"), stb) := by
  unfold refreshAccessToken
  rw [hv, hnone]

/-- Claim C6: refreshAccessToken validates the client and the token's
ownership, expiry and revocation, then marks the presented refresh
token revoked and issues a new access+refresh pair with the same
scope; after a successful refresh, presenting the same refresh token
again fails because the revoked row is no longer accepted. -/
theorem refreshAccessToken_spec (cfg : Config) (st : St) (now : Int)
    (refreshTokenValue clientId clientSecret freshA freshR : String) :
    (∀ e, validateClient st clientId (some clientSecret) = .error e →
      refreshAccessToken cfg st now refreshTokenValue clientId clientSecret freshA freshR
        = (.error e, st)) ∧
    (∀ client, validateClient st clientId (some clientSecret) = .ok client →
      st.refreshTokens.find?
        (fun t => t.refreshToken == refreshTokenValue && !t.revoked) = none →
      refreshAccessToken cfg st now refreshTokenValue clientId clientSecret freshA freshR
        = (.error (.badRequest "Invalid refresh token"), st)) ∧
    (∀ client rt, validateClient st clientId (some clientSecret) = .ok client →
      st.refreshTokens.find?
        (fun t => t.refreshToken == refreshTokenValue && !t.revoked) = some rt →
      rt.refreshTokenExpiresAt < now →
      refreshAccessToken cfg st now refreshTokenValue clientId clientSecret freshA freshR
        = (.error (.badRequest "Refresh token expired"), st)) ∧
    (∀ client rt, validateClient st clientId (some clientSecret) = .ok client →
      st.refreshTokens.find?
        (fun t => t.refreshToken == refreshTokenValue && !t.revoked) = some rt →
      ¬ rt.refreshTokenExpiresAt < now → rt.clientId ≠ client.id →
      refreshAccessToken cfg st now refreshTokenValue clientId clientSecret freshA freshR
        = (.error (.badRequest "Client mismatch"), st)) ∧
    (∀ client rt, validateClient st clientId (some clientSecret) = .ok client →
      st.refreshTokens.find?
        (fun t => t.refreshToken == refreshTokenValue && !t.revoked) = some rt →
      ¬ rt.refreshTokenExpiresAt < now → rt.clientId = client.id →
      freshR ≠ refreshTokenValue →
      ∃ accessTok newRefresh st1,
        refreshAccessToken cfg st now refreshTokenValue clientId clientSecret freshA freshR
          = (.ok (accessTok, newRefresh), st1) ∧
        accessTok.scope = rt.scope ∧ newRefresh.scope = rt.scope ∧
        accessTok.memberId = rt.memberId ∧ newRefresh.memberId = rt.memberId ∧
        (∀ t ∈ st1.refreshTokens, t.refreshToken = refreshTokenValue → t.revoked = true) ∧
        (∀ now2 fa2 fr2,
          refreshAccessToken cfg st1 now2 refreshTokenValue clientId clientSecret fa2 fr2
            = (.error (.badRequest "Invalid refresh token"), st1))) := by
  refine ⟨?_, ?_, ?_, ?_, ?_⟩
  · intro e hv
    unfold refreshAccessToken
    rw [hv]
  · intro client hv hf
    exact refresh_replay_fails cfg st now refreshTokenValue clientId clientSecret
      freshA freshR hv hf
  · intro client rt hv hf hexp
    unfold refreshAccessToken
    rw [hv, hf]
    simp [hexp]
  · intro client rt hv hf hexp hcl
    unfold refreshAccessToken
    rw [hv, hf]
    simp [hexp, hcl]
  · intro client rt hv hf hexp hcl hfresh
    unfold refreshAccessToken
    rw [hv, hf]
    simp only [if_neg hexp,
      if_neg (show ¬ rt.clientId ≠ client.id from fun h => h hcl)]
    refine ⟨_, _, _, rfl, rfl, rfl, rfl, rfl, ?_, ?_⟩
    · exact refreshTokens_after_rotation st refreshTokenValue _ hfresh
    · intro now2 fa2 fr2
      apply refresh_replay_fails
      · exact hv
      · exact find?_rotation_none st refreshTokenValue
          ({ refreshToken := freshR,
             refreshTokenExpiresAt := now + cfg.refreshTokenLifetime,
             scope := rt.scope, clientId := client.id, memberId := rt.memberId,
             revoked := false } : OAuthRefreshToken) hfresh

/-- Witness for refreshAccessToken_spec on the sample store: rotation
revokes the presented token and a replay fails. -/
theorem refreshAccessToken_spec_witness :
    ∃ accessTok newRefresh st1,
      refreshAccessToken sampleCfg sampleSt 50 "rt0" "cid1" "sec1" "at9" "rt9"
        = (.ok (accessTok, newRefresh), st1) ∧
      accessTok.scope = sampleRefresh.scope ∧ newRefresh.scope = sampleRefresh.scope ∧
      accessTok.memberId = sampleRefresh.memberId ∧
      newRefresh.memberId = sampleRefresh.memberId ∧
      (∀ t ∈ st1.refreshTokens, t.refreshToken = "rt0" → t.revoked = true) ∧
      (∀ now2 fa2 fr2,
        refreshAccessToken sampleCfg st1 now2 "rt0" "cid1" "sec1" fa2 fr2
          = (.error (.badRequest "Invalid refresh token"), st1)) :=
  (refreshAccessToken_spec sampleCfg sampleSt 50 "rt0" "cid1" "sec1" "at9" "rt9").2.2.2.2
    sampleClient sampleRefresh (by rfl) (by rfl) (by decide) (by rfl) (by decide)

/-- Saving a member row makes the by-id lookup return the saved row. -/
lemma findMember_after_update (st : St) (m1 : Member) (mid : String)
    (hid : m1.id = mid) (h : (findMember st mid).isSome) :
    findMember (updateMember st m1) mid = some m1 :=
  find?_map_update Member.id st.members mid m1 hid h

/-- Saving a redemption row makes the by-id lookup return the saved
row. -/
lemma findRedemption_after_save (st : St) (r1 : RedemptionRequest) (rid : String)
    (hid : r1.id = rid) (h : (st.redemptions.find? fun r => r.id == rid).isSome) :
    (saveRedemption st r1).redemptions.find? (fun r => r.id == rid) = some r1 :=
  find?_map_update RedemptionRequest.id st.redemptions rid r1 hid h

/-- Claim C5: POST points/redeem requires the presented access token's
scope set to include the spending capability (points) and fails with a
scope-denied error without mutating the balance when it is absent;
with the scope, it fails with InvalidAmount when the amount is not
strictly positive, fails with InsufficientBalance when the amount
exceeds the current balance, and otherwise decrements the balance by
exactly the amount and appends a completed debit Transaction with
status null. -/
theorem redeemEndpoint_spec (st : St) (now : Int) (token : String) (amount : Int)
    (txId : String) :
    (∀ tok, validateAccessToken st now token = .ok tok →
      tok.scope.contains "points" = false →
      redeemEndpoint st now token amount txId
        = (.error (.badRequest
            "Access token does not have permission to redeem points. Required scope: points"),
           st)) ∧
    (∀ tok member client, validateAccessToken st now token = .ok tok →
      tok.scope.contains "points" = true →
      findMember st tok.memberId = some member →
      st.clients.find? (fun c => c.id == tok.clientId) = some client →
      ((amount ≤ 0 →
        redeemEndpoint st now token amount txId
          = (.error (.badRequest "Redemption amount must be positive"), st)) ∧
       (0 < amount → member.points < amount →
        redeemEndpoint st now token amount txId
          = (.error (.badRequest "Insufficient points"), st)) ∧
       (0 < amount → ¬ member.points < amount →
        ∃ st1,
          redeemEndpoint st now token amount txId
            = (.ok (member.points - amount, txId), st1) ∧
          findMember st1 member.id
            = some { member with points := member.points - amount } ∧
          st1.transactions = st.transactions ++
            [{ id := txId, memberId := member.id, clientId := client.clientId,
               type := .debit, method := "oauth_direct", amount := amount,
               status := none, completedAt := none }]))) := by
  refine ⟨?_, ?_⟩
  · intro tok hval hscope
    unfold redeemEndpoint
    rw [hval]
    dsimp only
    rw [if_neg (show ¬ tok.scope.contains "points" = true by rw [hscope]; decide)]
  · intro tok member client hval hscope hm hc
    have hmid : member.id = tok.memberId := by simpa using List.find?_some hm
    refine ⟨?_, ?_, ?_⟩
    · intro hneg
      unfold redeemEndpoint redeemByIds redeemWithAccessToken
      rw [hval]
      dsimp only
      rw [if_pos hscope, hm, hc]
      dsimp only
      rw [if_pos hneg]
    · intro hpos hins
      unfold redeemEndpoint redeemByIds redeemWithAccessToken
      rw [hval]
      dsimp only
      rw [if_pos hscope, hm, hc]
      dsimp only
      rw [if_neg (by omega : ¬ amount ≤ 0), if_pos hins]
    · intro hpos hsuff
      unfold redeemEndpoint redeemByIds redeemWithAccessToken
      rw [hval]
      dsimp only
      rw [if_pos hscope, hm, hc]
      dsimp only
      rw [if_neg (by omega : ¬ amount ≤ 0), if_neg hsuff]
      refine ⟨_, rfl, ?_, rfl⟩
      exact findMember_after_update st _ member.id rfl (by rw [hmid, hm]; rfl)

/-- Witness for redeemEndpoint_spec: the sample token debits 50 of the
sample member's 200 points and appends the oauth_direct debit row. -/
theorem redeemEndpoint_spec_witness :
    ∃ st1,
      redeemEndpoint sampleSt 10 "at0" 50 "tx1" = (.ok (150, "tx1"), st1) ∧
      findMember st1 "m1" = some { sampleMember with points := 150 } ∧
      st1.transactions = sampleSt.transactions ++
        [{ id := "tx1", memberId := "m1", clientId := "cid1",
           type := .debit, method := "oauth_direct", amount := 50,
           status := none, completedAt := none }] :=
  ((redeemEndpoint_spec sampleSt 10 "at0" 50 "tx1").2 sampleToken sampleMember
    sampleClient (by rfl) (by rfl) (by rfl) (by rfl)).2.2 (by decide) (by decide)

/-- Claim C4: approveRedemptionRequest fails with NotFound if the
request does not exist; with Forbidden if the member does not own it;
with AlreadyProcessed if its status is not pending, without mutating
any state; with OtpExpired if past the OTP lifetime, persisting the
entry as expired; with InvalidOtp on OTP mismatch; with
InsufficientBalance if the re-checked balance is below the amount,
persisting the entry as rejected while leaving balances untouched;
otherwise it decrements the balance by the amount, marks the entry
approved with a completion timestamp, and appends a debit Transaction.
Each conjunct assumes only the checks that precede it in the source,
so the checks apply in exactly that order. -/
theorem approveRedemptionRequest_spec (st : St) (now : Int)
    (memberId requestId otp txId : String) :
    (st.redemptions.find? (fun r => r.id == requestId) = none →
      approveRedemptionRequest st now memberId requestId otp txId
        = (.error (.notFound "Redemption request not found"), st)) ∧
    (∀ r, st.redemptions.find? (fun r => r.id == requestId) = some r →
      r.memberId ≠ memberId →
      approveRedemptionRequest st now memberId requestId otp txId
        = (.error (.badRequest "This redemption request does not belong to you"), st)) ∧
    (∀ r, st.redemptions.find? (fun r => r.id == requestId) = some r →
      r.memberId = memberId → r.status ≠ .pending →
      approveRedemptionRequest st now memberId requestId otp txId
        = (.error (.badRequest ("Redemption request is already " ++ r.status.text)), st)) ∧
    (∀ r, st.redemptions.find? (fun r => r.id == requestId) = some r →
      r.memberId = memberId → r.status = .pending → r.otpExpiresAt < now →
      approveRedemptionRequest st now memberId requestId otp txId
        = (.error (.badRequest "OTP has expired. Please request a new redemption."),
           saveRedemption st { r with status := .expired }) ∧
      (saveRedemption st { r with status := .expired }).redemptions.find?
        (fun x => x.id == requestId) = some { r with status := .expired } ∧
      (saveRedemption st { r with status := .expired }).members = st.members) ∧
    (∀ r, st.redemptions.find? (fun r => r.id == requestId) = some r →
      r.memberId = memberId → r.status = .pending → ¬ r.otpExpiresAt < now →
      r.otp ≠ otp →
      approveRedemptionRequest st now memberId requestId otp txId
        = (.error (.badRequest "Invalid OTP"), st)) ∧
    (∀ r member, st.redemptions.find? (fun r => r.id == requestId) = some r →
      r.memberId = memberId → r.status = .pending → ¬ r.otpExpiresAt < now →
      r.otp = otp → findMember st r.memberId = some member →
      member.points < r.amount →
      approveRedemptionRequest st now memberId requestId otp txId
        = (.error (.badRequest "Insufficient points"),
           saveRedemption st { r with status := .rejected }) ∧
      (saveRedemption st { r with status := .rejected }).redemptions.find?
        (fun x => x.id == requestId) = some { r with status := .rejected } ∧
      (saveRedemption st { r with status := .rejected }).members = st.members) ∧
    (∀ r member, st.redemptions.find? (fun r => r.id == requestId) = some r →
      r.memberId = memberId → r.status = .pending → ¬ r.otpExpiresAt < now →
      r.otp = otp → findMember st r.memberId = some member →
      ¬ member.points < r.amount →
      ∃ st1,
        approveRedemptionRequest st now memberId requestId otp txId
          = (.ok (member.points - r.amount, txId), st1) ∧
        findMember st1 member.id
          = some { member with points := member.points - r.amount } ∧
        st1.redemptions.find? (fun x => x.id == requestId)
          = some { r with status := .approved, completedAt := some now } ∧
        st1.transactions = st.transactions ++
          [{ id := txId, memberId := member.id, clientId := r.clientId,
             type := .debit, method := "otp_approval", amount := r.amount,
             status := some "approved", completedAt := some now }]) := by
  refine ⟨?_, ?_, ?_, ?_, ?_, ?_, ?_⟩
  · intro hf
    unfold approveRedemptionRequest
    rw [hf]
  · intro r hf hown
    unfold approveRedemptionRequest
    rw [hf]
    simp [hown]
  · intro r hf hown hstat
    unfold approveRedemptionRequest
    rw [hf]
    simp [hown, hstat]
  · intro r hf hown hstat hexp
    have hrid : r.id = requestId := by simpa using List.find?_some hf
    refine ⟨?_, ?_, rfl⟩
    · unfold approveRedemptionRequest
      rw [hf]
      simp [hown, hstat, hexp]
    · exact findRedemption_after_save st _ requestId hrid (by rw [hf]; rfl)
  · intro r hf hown hstat hexp hotp
    unfold approveRedemptionRequest
    rw [hf]
    simp [hown, hstat, hexp, hotp]
  · intro r member hf hown hstat hexp hotp hmem hins
    have hrid : r.id = requestId := by simpa using List.find?_some hf
    refine ⟨?_, ?_, rfl⟩
    · unfold approveRedemptionRequest
      rw [hf]
      dsimp only
      rw [if_neg (by simp [hown] : ¬ r.memberId ≠ memberId)]
      rw [if_neg (by simp [hstat] : ¬ r.status ≠ ReqStatus.pending)]
      rw [if_neg hexp]
      rw [if_neg (by simp [hotp] : ¬ r.otp ≠ otp)]
      rw [hmem]
      dsimp only
      rw [if_pos hins]
    · exact findRedemption_after_save st _ requestId hrid (by rw [hf]; rfl)
  · intro r member hf hown hstat hexp hotp hmem hsuff
    have hrid : r.id = requestId := by simpa using List.find?_some hf
    have hmemid : member.id = r.memberId := by simpa using List.find?_some hmem
    unfold approveRedemptionRequest
    rw [hf]
    dsimp only
    rw [if_neg (by simp [hown] : ¬ r.memberId ≠ memberId)]
    rw [if_neg (by simp [hstat] : ¬ r.status ≠ ReqStatus.pending)]
    rw [if_neg hexp]
    rw [if_neg (by simp [hotp] : ¬ r.otp ≠ otp)]
    rw [hmem]
    dsimp only
    rw [if_neg hsuff]
    have hfs : (st.redemptions.find? fun r => r.id == requestId).isSome := by
      rw [hf]; rfl
    have hms : (findMember st member.id).isSome := by
      rw [hmemid, hmem]; rfl
    refine ⟨_, rfl, ?_, ?_, rfl⟩
    · exact findMember_after_update _ _ member.id rfl hms
    · exact findRedemption_after_save _ _ requestId hrid hfs

/-- Witness for approveRedemptionRequest_spec: approving the sample
pending request with the right OTP before expiry debits 50 points,
marks the entry approved and appends the otp_approval debit row. -/
theorem approveRedemptionRequest_spec_witness :
    ∃ st1,
      approveRedemptionRequest sampleSt 10 "m1" "req1" "123456" "tx2"
        = (.ok (150, "tx2"), st1) ∧
      findMember st1 "m1" = some { sampleMember with points := 150 } ∧
      st1.redemptions.find? (fun x => x.id == "req1")
        = some { sampleRequest with status := .approved, completedAt := some 10 } ∧
      st1.transactions = sampleSt.transactions ++
        [{ id := "tx2", memberId := "m1", clientId := "cid1",
           type := .debit, method := "otp_approval", amount := 50,
           status := some "approved", completedAt := some 10 }] :=
  (approveRedemptionRequest_spec sampleSt 10 "m1" "req1" "123456" "tx2").2.2.2.2.2.2
    sampleRequest sampleMember (by rfl) (by rfl) (by rfl) (by decide) (by rfl)
    (by rfl) (by decide)

/-- In a store with pairwise-distinct keys, looking a stored row up by
its own key returns that row. -/
lemma find?_self_of_nodup {α : Type} (key : α → String) (l : List α) (m : α)
    (hnodup : (l.map key).Nodup) (hm : m ∈ l) :
    l.find? (fun x => key x == key m) = some m := by
  induction l with
  | nil => cases hm
  | cons a l ih =>
    rw [List.map_cons, List.nodup_cons] at hnodup
    rcases List.mem_cons.1 hm with h | h
    · rw [← h]
      exact List.find?_cons_of_pos _ (by simp)
    · by_cases hk : key a = key m
      · exact absurd (hk ▸ List.mem_map_of_mem key h) hnodup.1
      · rw [List.find?_cons_of_neg _ (by simp [hk])]
        exact ih hnodup.2 h

/-- Claim C10: the member active flag gates only the client-credential
ledger operations, not the token path. For a deactivated member,
creditPointsWithClientCredentials and createRedemptionRequest fail
with NotFound, while validateAccessToken on a valid unrevoked token of
that member still succeeds and redeemWithAccessToken still debits the
balance. -/
theorem member_active_flag_gating (st : St) (m : Member)
    (hnodup : (st.members.map Member.id).Nodup)
    (hm : m ∈ st.members) (hinact : m.active = false) :
    (∀ clientId clientSecret amount reason txId client,
      findClient st clientId = some client → client.clientSecret = clientSecret →
      creditPointsWithClientCredentials st clientId clientSecret m.id amount reason txId
        = (.error (.notFound "Member not found"), st)) ∧
    (∀ now clientId clientSecret amount otp reqId client,
      findClient st clientId = some client → client.clientSecret = clientSecret →
      createRedemptionRequest st now clientId clientSecret m.id amount otp reqId
        = (.error (.notFound "Member not found"), st)) ∧
    (∀ now token tok,
      st.accessTokens.find? (fun t => t.accessToken == token && !t.revoked) = some tok →
      tok.memberId = m.id →
      (∀ e, tok.accessTokenExpiresAt = some e → ¬ e < now) →
      validateAccessToken st now token = .ok tok) ∧
    (∀ client amount txId, 0 < amount → ¬ m.points < amount →
      ∃ st1,
        redeemWithAccessToken st m client amount txId
          = (.ok (m.points - amount, txId), st1) ∧
        findMember st1 m.id = some { m with points := m.points - amount }) := by
  have hnone : findMemberActive st m.id = none :=
    findMemberActive_eq_none hnodup hm hinact
  refine ⟨?_, ?_, ?_, ?_⟩
  · intro clientId clientSecret amount reason txId client hcli hsec
    unfold creditPointsWithClientCredentials
    rw [hcli]
    dsimp only
    rw [if_neg (by simp [hsec]), hnone]
  · intro now clientId clientSecret amount otp reqId client hcli hsec
    unfold createRedemptionRequest
    rw [hcli]
    dsimp only
    rw [if_neg (by simp [hsec]), hnone]
  · intro now token tok hfind hmid hexp
    unfold validateAccessToken
    rw [hfind]
    dsimp only
    cases he : tok.accessTokenExpiresAt with
    | none => rfl
    | some e =>
      dsimp only
      rw [if_neg (hexp e he)]
  · intro client amount txId hpos hsuff
    have hms : (findMember st m.id).isSome := by
      have : findMember st m.id = some m := find?_self_of_nodup Member.id st.members m hnodup hm
      rw [this]
      rfl
    unfold redeemWithAccessToken
    rw [if_neg (by omega : ¬ amount ≤ 0), if_neg hsuff]
    exact ⟨_, rfl, findMember_after_update st _ m.id rfl hms⟩

/-- Witness for member_active_flag_gating on the store with the
deactivated member m2 (balance 80): crediting fails NotFound, the
token still validates, and the token-backed debit still succeeds. -/
theorem member_active_flag_gating_witness :
    creditPointsWithClientCredentials dormantSt "cid1" "sec1" "m2" 40 none "tx5"
      = (.error (.notFound "Member not found"), dormantSt) ∧
    validateAccessToken dormantSt 10 "atD" = .ok dormantToken ∧
    (∃ st1,
      redeemWithAccessToken dormantSt dormantMember sampleClient 30 "tx6"
        = (.ok (50, "tx6"), st1) ∧
      findMember st1 "m2" = some { dormantMember with points := 50 }) :=
  ⟨(member_active_flag_gating dormantSt dormantMember (by decide) (by decide)
      (by decide)).1 "cid1" "sec1" 40 none "tx5" sampleClient (by rfl) (by rfl),
   (member_active_flag_gating dormantSt dormantMember (by decide) (by decide)
      (by decide)).2.2.1 10 "atD" dormantToken (by rfl) (by rfl)
      (fun e he => by cases he; decide),
   (member_active_flag_gating dormantSt dormantMember (by decide) (by decide)
      (by decide)).2.2.2 sampleClient 30 "tx6" (by decide) (by decide)⟩

/-- Every ledger operation of the balance-invariant claim preserves
non-negativity of all member balances: each debit path checks the
balance before the decrement and each credit requires a strictly
positive amount. -/
lemma balancesNonneg_applyLedgerOp (st : St) (op : LedgerOp)
    (h : balancesNonneg st) : balancesNonneg (applyLedgerOp st op) := by
  cases op with
  | redeem mid cpk amount txId =>
    unfold applyLedgerOp redeemByIds redeemWithAccessToken
    dsimp only
    split
    next member client hmm hc =>
      split
      next => exact h
      next hneg =>
        split
        next => exact h
        next hins =>
          exact balancesNonneg_updateMember h
            (show (0:Int) ≤ member.points - amount by omega)
    all_goals exact h
  | approve now mid rid otp txId =>
    unfold applyLedgerOp approveRedemptionRequest
    dsimp only
    split
    next => exact h
    next r hf =>
      split
      next => exact h
      next hown =>
        split
        next => exact h
        next hstat =>
          split
          next hexp => exact h
          next hexp =>
            split
            next => exact h
            next hotp =>
              split
              next => exact h
              next member hmem =>
                split
                next hins => exact h
                next hins =>
                  exact balancesNonneg_updateMember h
                    (show (0:Int) ≤ member.points - r.amount by omega)
  | credit clientId clientSecret mid amount reason txId =>
    unfold applyLedgerOp creditPointsWithClientCredentials
    dsimp only
    split
    next => exact h
    next client hcli =>
      split
      next => exact h
      next hsec =>
        split
        next => exact h
        next member hmemf =>
          split
          next => exact h
          next hneg =>
            have hmem2 : member ∈ st.members := List.mem_of_find?_eq_some hmemf
            have hb := h member hmem2
            exact balancesNonneg_updateMember h
              (show (0:Int) ≤ member.points + amount by omega)

/-- Claim C1: starting from any state with non-negative balances,
every sequence of the ledger operations (token-backed redeem, OTP
approval, client-credential credit) keeps every member's balance
non-negative; a debit whose amount exceeds the current balance fails
with the insufficient-points error leaving every balance unchanged,
and every successful credit adds a strictly positive amount. -/
theorem ledger_balance_never_negative (st : St) (ops : List LedgerOp)
    (h : balancesNonneg st) :
    balancesNonneg (ops.foldl applyLedgerOp st) ∧
    (∀ mid cpk amount txId member client,
      findMember st mid = some member →
      st.clients.find? (fun c => c.id == cpk) = some client →
      0 < amount → member.points < amount →
      redeemByIds st mid cpk amount txId
        = (.error (.badRequest "Insufficient points"), st)) ∧
    (∀ now mid rid otp txId r member,
      st.redemptions.find? (fun x => x.id == rid) = some r →
      r.memberId = mid → r.status = .pending → ¬ r.otpExpiresAt < now →
      r.otp = otp → findMember st r.memberId = some member →
      member.points < r.amount →
      (approveRedemptionRequest st now mid rid otp txId).1
        = .error (.badRequest "Insufficient points") ∧
      (approveRedemptionRequest st now mid rid otp txId).2.members = st.members) ∧
    (∀ clientId clientSecret mid amount reason txId res st1,
      creditPointsWithClientCredentials st clientId clientSecret mid amount reason txId
        = (.ok res, st1) → 0 < amount) := by
  refine ⟨?_, ?_, ?_, ?_⟩
  · induction ops generalizing st with
    | nil => exact h
    | cons op ops ih =>
      rw [List.foldl_cons]
      exact ih _ (balancesNonneg_applyLedgerOp st op h)
  · intro mid cpk amount txId member client hmm hc hpos hins
    unfold redeemByIds redeemWithAccessToken
    rw [hmm, hc]
    dsimp only
    rw [if_neg (by omega : ¬ amount ≤ 0), if_pos hins]
  · intro now mid rid otp txId r member hf hown hstat hexp hotp hmem hins
    unfold approveRedemptionRequest
    rw [hf]
    dsimp only
    rw [if_neg (by simp [hown] : ¬ r.memberId ≠ mid)]
    rw [if_neg (by simp [hstat] : ¬ r.status ≠ ReqStatus.pending)]
    rw [if_neg hexp]
    rw [if_neg (by simp [hotp] : ¬ r.otp ≠ otp)]
    rw [hmem]
    dsimp only
    rw [if_pos hins]
    exact ⟨rfl, rfl⟩
  · intro clientId clientSecret mid amount reason txId res st1 heq
    unfold creditPointsWithClientCredentials at heq
    split at heq
    · simp at heq
    next client hcli =>
      split at heq
      · simp at heq
      next hsec =>
        split at heq
        · simp at heq
        next member hmemf =>
          split at heq
          · simp at heq
          next hneg => omega

/-- Witness for ledger_balance_never_negative: a concrete sequence of
credit, redeem and OTP approval on the sample store keeps all member
balances non-negative. -/
theorem ledger_balance_never_negative_witness :
    balancesNonneg
      ([LedgerOp.credit "cid1" "sec1" "m1" 100 none "t1",
        LedgerOp.redeem "m1" "pk1" 250 "t2",
        LedgerOp.approve 10 "m1" "req1" "123456" "t3"].foldl applyLedgerOp sampleSt) :=
  (ledger_balance_never_negative sampleSt
    [LedgerOp.credit "cid1" "sec1" "m1" 100 none "t1",
     LedgerOp.redeem "m1" "pk1" 250 "t2",
     LedgerOp.approve 10 "m1" "req1" "123456" "t3"]
    (by unfold balancesNonneg; decide)).1

/-- Claim C3 (code bug): the admin-dashboard approval path decrements
the member's balance (200 to 150) and marks the request approved, but
appends no Transaction row, so the balance mutation is not mirrored in
the unified ledger and the reconciliation sum over Transaction entries
is unchanged while the balance dropped by 50. The PointsService paths
all append exactly one Transaction; this path is the exception the
claim rules out. -/
theorem adminApprove_mutates_balance_without_transaction :
    findMember sampleSt "m1" = some sampleMember ∧
    sampleMember.points = 200 ∧
    (adminApproveRedemptionRequest sampleSt 10 "req1" "m1" "123456").1 = .ok 150 ∧
    findMember (adminApproveRedemptionRequest sampleSt 10 "req1" "m1" "123456").2 "m1"
      = some { sampleMember with points := 150 } ∧
    (adminApproveRedemptionRequest sampleSt 10 "req1" "m1" "123456").2.transactions
      = sampleSt.transactions ∧
    ledgerSum "m1"
        (adminApproveRedemptionRequest sampleSt 10 "req1" "m1" "123456").2.transactions
      = ledgerSum "m1" sampleSt.transactions := by
  refine ⟨rfl, rfl, rfl, rfl, rfl, rfl⟩

/-- Claim C9 (code bug): the exchange's read phase (find and validate)
and commit phase (save access token, save refresh token, remove code)
are separate awaited repository calls with no enclosing transaction or
lock. Under the interleaving read_A, read_B, commit_A, commit_B of two
attempts for the same code, both reads succeed on the un-deleted code
and both commits issue a token pair (the second remove is a no-op
delete of an absent row), so two concurrent attempts both obtain
tokens instead of exactly one. -/
theorem exchange_race_two_successes :
    exchangeReadPhase sampleSt 50 "code1" "cid1" "sec1" "https://app/cb"
      = .ok (sampleClient, sampleCode) ∧
    (exchangeCommitPhase sampleCfg
        (exchangeCommitPhase sampleCfg sampleSt 50 sampleClient sampleCode "atA" "rtA").2
        50 sampleClient sampleCode "atB" "rtB").2.accessTokens.map
      (fun t => t.accessToken) = ["at0", "card0", "atA", "atB"] ∧
    (exchangeCommitPhase sampleCfg
        (exchangeCommitPhase sampleCfg sampleSt 50 sampleClient sampleCode "atA" "rtA").2
        50 sampleClient sampleCode "atB" "rtB").2.refreshTokens.map
      (fun t => t.refreshToken) = ["rt0", "rtA", "rtB"] ∧
    (exchangeCommitPhase sampleCfg
        (exchangeCommitPhase sampleCfg sampleSt 50 sampleClient sampleCode "atA" "rtA").2
        50 sampleClient sampleCode "atB" "rtB").2.authCodes = [] := by
  refine ⟨rfl, rfl, rfl, rfl⟩

end CrkPointsBank
